import Mathlib

/-!
Verification of the fragment codecs of the `eq_wld` world-file parser.

The five fragment kinds under `src/parser/fragments/` are embedded
shallowly: byte slices are `List Nat` (each element a byte value `< 256`),
nom-style parsers become functions `Bytes → Except ParseError (α × Bytes)`
returning the parsed value together with the remaining input, and
`serialize` returns the emitted byte list.  The scalar codecs
(`le_u16`, `le_u32`, `le_i16`, `le_i32`, `le_f32`) mirror nom's
little-endian readers; a 32-bit float is modelled by its raw 32-bit
pattern, since Rust's `f32::from_le_bytes` / `f32::to_le_bytes` are
mutually inverse bit-level conversions and the code never inspects the
numeric value.
-/

namespace EqWld

/-- A byte slice: a list of byte values.  Well-formed inputs satisfy
`validBytes` (every element below 256). -/
abbrev Bytes := List Nat

/-- Every element of the slice is a genuine byte value. -/
def validBytes (bs : Bytes) : Prop := ∀ b ∈ bs, b < 256

instance (bs : Bytes) : Decidable (validBytes bs) :=
  List.decidableBAll _ bs

/-- The only parse-time failure in these codecs: a declared length or
count exceeds the remaining input (nom's failure on exhausted input). -/
inductive ParseError where
  | InsufficientBytes
deriving DecidableEq

/-- Little-endian unsigned 16-bit read: consumes two bytes. -/
def le_u16 : Bytes → Except ParseError (Nat × Bytes)
  | b0 :: b1 :: rest => .ok (b0 + 256 * b1, rest)
  | _ => .error .InsufficientBytes

/-- Little-endian unsigned 32-bit read: consumes four bytes. -/
def le_u32 : Bytes → Except ParseError (Nat × Bytes)
  | b0 :: b1 :: b2 :: b3 :: rest =>
      .ok (b0 + 256 * b1 + 65536 * b2 + 16777216 * b3, rest)
  | _ => .error .InsufficientBytes

/-- Reinterpret an unsigned 16-bit value as two's-complement signed. -/
def natToI16 (v : Nat) : Int :=
  if v < 32768 then (v : Int) else (v : Int) - 65536

/-- Reinterpret an unsigned 32-bit value as two's-complement signed. -/
def natToI32 (v : Nat) : Int :=
  if v < 2147483648 then (v : Int) else (v : Int) - 4294967296

/-- Little-endian signed 16-bit read. -/
def le_i16 (bs : Bytes) : Except ParseError (Int × Bytes) :=
  match le_u16 bs with
  | .ok (v, rest) => .ok (natToI16 v, rest)
  | .error e => .error e

/-- Little-endian signed 32-bit read. -/
def le_i32 (bs : Bytes) : Except ParseError (Int × Bytes) :=
  match le_u32 bs with
  | .ok (v, rest) => .ok (natToI32 v, rest)
  | .error e => .error e

/-- Little-endian 32-bit float read, modelled by its raw bit pattern
(`f32::from_le_bytes` is a bit-level conversion inverted exactly by
`f32::to_le_bytes`). -/
def le_f32 : Bytes → Except ParseError (Nat × Bytes) := le_u32

/-- `u16::to_le_bytes`. -/
def u16ToLeBytes (v : Nat) : Bytes := [v % 256, v / 256 % 256]

/-- `u32::to_le_bytes` (also used for the raw pattern of an `f32`). -/
def u32ToLeBytes (v : Nat) : Bytes :=
  [v % 256, v / 256 % 256, v / 65536 % 256, v / 16777216 % 256]

/-- `i16::to_le_bytes`: the two's-complement pattern, little-endian. -/
def i16ToLeBytes (i : Int) : Bytes := u16ToLeBytes (i % 65536).toNat

/-- `i32::to_le_bytes`: the two's-complement pattern, little-endian. -/
def i32ToLeBytes (i : Int) : Bytes := u32ToLeBytes (i % 4294967296).toNat

/-- The little-endian u16 value stored at byte offset `o` of a slice
(missing bytes read as 0; only used at offsets known to be in range). -/
def leU16At (bs : Bytes) (o : Nat) : Nat :=
  (bs[o]?.getD 0) + 256 * (bs[o + 1]?.getD 0)

/-- The little-endian u32 value stored at byte offset `o` of a slice. -/
def leU32At (bs : Bytes) (o : Nat) : Nat :=
  (bs[o]?.getD 0) + 256 * (bs[o + 1]?.getD 0) + 65536 * (bs[o + 2]?.getD 0)
    + 16777216 * (bs[o + 3]?.getD 0)

/-- Modelled from the spec: `StringReference` (declared in
`src/parser/fragments/mod.rs`, which is not part of the provided source):
"a signed 32-bit value held by a fragment", parsed as a little-endian i32
and serialized as its 4 raw bytes. -/
structure StringReference where
  value : Int
deriving DecidableEq

def StringReference.new (v : Int) : StringReference := ⟨v⟩

def StringReference.parse (bs : Bytes) : Except ParseError (StringReference × Bytes) :=
  match le_i32 bs with
  | .ok (v, rest) => .ok (⟨v⟩, rest)
  | .error e => .error e

def StringReference.serialize (r : StringReference) : Bytes :=
  i32ToLeBytes r.value

/-- Modelled from the spec: `FragmentRef` (declared in
`src/parser/fragments/mod.rs`, not part of the provided source): "the
integer is the only state", `serialize() -> 4 bytes` emitting "the raw
index, little-endian".  The phantom kind parameter carries no runtime
data and is dropped. -/
structure FragmentRef where
  index : Int
deriving DecidableEq

def FragmentRef.new (v : Int) : FragmentRef := ⟨v⟩

/-- Modelled from the spec: the `fragment_ref` helper of
`src/parser/fragments/mod.rs` reads the raw 32-bit index little-endian. -/
def fragment_ref (bs : Bytes) : Except ParseError (FragmentRef × Bytes) :=
  match le_i32 bs with
  | .ok (v, rest) => .ok (⟨v⟩, rest)
  | .error e => .error e

def FragmentRef.serialize (r : FragmentRef) : Bytes :=
  i32ToLeBytes r.index

/-- nom's `count` combinator: run `p` exactly `n` times. -/
def pcount {α : Type} (p : Bytes → Except ParseError (α × Bytes)) :
    Nat → Bytes → Except ParseError (List α × Bytes)
  | 0, bs => .ok ([], bs)
  | n + 1, bs =>
    match p bs with
    | .error e => .error e
    | .ok (a, bs1) =>
      match pcount p n bs1 with
      | .error e => .error e
      | .ok (l, bs2) => .ok (a :: l, bs2)

/-- Modelled from the spec: the decoded string block handed to `name`
lookups (`StringHash` in `src/parser/fragments/mod.rs`, not part of the
provided source).  Only its existence matters here: the zero-field kind
ignores it entirely. -/
abbrev StringHash := List (Int × String)

/-- `CameraReferenceFragment` (type id 0x09): name reference, one
fragment reference, and an unknown `flags` word. -/
structure CameraReferenceFragment where
  name_reference : StringReference
  reference : FragmentRef
  flags : Nat
deriving DecidableEq

/-- `CameraReferenceFragment::parse`. -/
def CameraReferenceFragment.parse (input : Bytes) :
    Except ParseError (CameraReferenceFragment × Bytes) := do
  let (name_reference, r1) ← StringReference.parse input
  let (reference, r2) ← fragment_ref r1
  let (flags, r3) ← le_u32 r2
  pure (⟨name_reference, reference, flags⟩, r3)

/-- `CameraReferenceFragment::serialize`. -/
def CameraReferenceFragment.serialize (f : CameraReferenceFragment) : Bytes :=
  f.name_reference.serialize ++ f.reference.serialize ++ u32ToLeBytes f.flags

/-- `MeshAnimatedVerticesReferenceFragment` (type id 0x2f): identical
layout to the camera reference. -/
structure MeshAnimatedVerticesReferenceFragment where
  name_reference : StringReference
  reference : FragmentRef
  flags : Nat
deriving DecidableEq

/-- `MeshAnimatedVerticesReferenceFragment::parse`. -/
def MeshAnimatedVerticesReferenceFragment.parse (input : Bytes) :
    Except ParseError (MeshAnimatedVerticesReferenceFragment × Bytes) := do
  let (name_reference, r1) ← StringReference.parse input
  let (reference, r2) ← fragment_ref r1
  let (flags, r3) ← le_u32 r2
  pure (⟨name_reference, reference, flags⟩, r3)

/-- `MeshAnimatedVerticesReferenceFragment::serialize`. -/
def MeshAnimatedVerticesReferenceFragment.serialize
    (f : MeshAnimatedVerticesReferenceFragment) : Bytes :=
  f.name_reference.serialize ++ f.reference.serialize ++ u32ToLeBytes f.flags

/-- `PolygonAnimationReferenceFragment` (type id 0x18): name reference,
fragment reference, flags, and a trailing `params1` float, modelled by
its raw 32-bit pattern. -/
structure PolygonAnimationReferenceFragment where
  name_reference : StringReference
  reference : FragmentRef
  flags : Nat
  params1 : Nat
deriving DecidableEq

/-- `PolygonAnimationReferenceFragment::parse`: the trailing float is
read unconditionally, with no test of the flags word. -/
def PolygonAnimationReferenceFragment.parse (input : Bytes) :
    Except ParseError (PolygonAnimationReferenceFragment × Bytes) := do
  let (name_reference, r1) ← StringReference.parse input
  let (reference, r2) ← fragment_ref r1
  let (flags, r3) ← le_u32 r2
  let (params1, r4) ← le_f32 r3
  pure (⟨name_reference, reference, flags, params1⟩, r4)

/-- `PolygonAnimationReferenceFragment::serialize`: the trailing float
is written unconditionally. -/
def PolygonAnimationReferenceFragment.serialize
    (f : PolygonAnimationReferenceFragment) : Bytes :=
  f.name_reference.serialize ++ f.reference.serialize ++ u32ToLeBytes f.flags
    ++ u32ToLeBytes f.params1

/-- `ZoneUnknownFragment` (type id 0x16): no fields at all. -/
structure ZoneUnknownFragment where
deriving DecidableEq

/-- `ZoneUnknownFragment::parse` returns the whole input as remaining. -/
def ZoneUnknownFragment.parse (input : Bytes) :
    Except ParseError (ZoneUnknownFragment × Bytes) :=
  .ok (⟨⟩, input)

/-- `ZoneUnknownFragment::serialize` emits no bytes. -/
def ZoneUnknownFragment.serialize (_ : ZoneUnknownFragment) : Bytes := []

/-- `ZoneUnknownFragment::name` ignores the string block. -/
def ZoneUnknownFragment.name (_ : ZoneUnknownFragment) (_ : StringHash) : String :=
  ""

/-- `MeshAnimatedVerticesFragment` (type id 0x37): counted-array record
with two independent counts. -/
structure MeshAnimatedVerticesFragment where
  name_reference : StringReference
  flags : Nat
  vertex_count : Nat
  frame_count : Nat
  param1 : Nat
  param2 : Nat
  scale : Nat
  frames : List Nat
  vertices : List (Int × Int × Int)
  size6 : Nat
deriving DecidableEq

/-- One vertex delta: a triple of little-endian i16 components. -/
def le_i16_triple (bs : Bytes) : Except ParseError ((Int × Int × Int) × Bytes) := do
  let (x, r1) ← le_i16 bs
  let (y, r2) ← le_i16 r1
  let (z, r3) ← le_i16 r2
  pure ((x, y, z), r3)

/-- `MeshAnimatedVerticesFragment::parse`: fixed header, then
`frame_count` u32 values, `vertex_count` i16 triples, and a trailing
u16. -/
def MeshAnimatedVerticesFragment.parse (input : Bytes) :
    Except ParseError (MeshAnimatedVerticesFragment × Bytes) := do
  let (name_reference, i1) ← StringReference.parse input
  let (flags, i2) ← le_u32 i1
  let (vertex_count, i3) ← le_u16 i2
  let (frame_count, i4) ← le_u16 i3
  let (param1, i5) ← le_u16 i4
  let (param2, i6) ← le_u16 i5
  let (scale, i7) ← le_u16 i6
  let (frames, i8) ← pcount le_u32 frame_count i7
  let (vertices, i9) ← pcount le_i16_triple vertex_count i8
  let (size6, i10) ← le_u16 i9
  pure (⟨name_reference, flags, vertex_count, frame_count, param1, param2,
         scale, frames, vertices, size6⟩, i10)

/-- Serialization of one vertex triple. -/
def tripleToLeBytes (v : Int × Int × Int) : Bytes :=
  i16ToLeBytes v.1 ++ i16ToLeBytes v.2.1 ++ i16ToLeBytes v.2.2

/-- `MeshAnimatedVerticesFragment::serialize`: emits the stored count
fields verbatim, then one element per actual entry of `frames` and
`vertices`. -/
def MeshAnimatedVerticesFragment.serialize (f : MeshAnimatedVerticesFragment) : Bytes :=
  f.name_reference.serialize ++ u32ToLeBytes f.flags ++ u16ToLeBytes f.vertex_count
    ++ u16ToLeBytes f.frame_count ++ u16ToLeBytes f.param1 ++ u16ToLeBytes f.param2
    ++ u16ToLeBytes f.scale ++ (f.frames.map u32ToLeBytes).flatten
    ++ (f.vertices.map tripleToLeBytes).flatten ++ u16ToLeBytes f.size6

/-! ### Monad plumbing -/

theorem bind_ok {α β : Type} {e : Except ParseError α} {f : α → Except ParseError β}
    {b : β} (h : (e >>= f) = .ok b) : ∃ a, e = .ok a ∧ f a = .ok b := by
  cases e with
  | error err => simp [Bind.bind, Except.bind] at h
  | ok a => exact ⟨a, rfl, by simpa [Bind.bind, Except.bind] using h⟩

theorem bind_ok_of {α β : Type} {e : Except ParseError α} {f : α → Except ParseError β}
    {a : α} (he : e = .ok a) : (e >>= f) = f a := by
  subst he; rfl

theorem bind_err_of {α β : Type} {e : Except ParseError α} {f : α → Except ParseError β}
    {err : ParseError} (he : e = .error err) : (e >>= f) = .error err := by
  subst he; rfl

theorem map_ok_of {α β : Type} {e : Except ParseError α} {g : α → β} {a : α}
    (he : e = .ok a) : (g <$> e) = .ok (g a) := by
  subst he; rfl

theorem map_err_of {α β : Type} {e : Except ParseError α} {g : α → β} {err : ParseError}
    (he : e = .error err) : (g <$> e) = .error err := by
  subst he; rfl

/-! ### Exact-consumption lemmas for the scalar codecs -/

theorem le_u16_ok (bs : Bytes) (h : 2 ≤ bs.length) :
    le_u16 bs = .ok (leU16At bs 0, bs.drop 2) := by
  match bs with
  | b0 :: b1 :: tl => simp [le_u16, leU16At]
  | [] | [b0] => simp at h

theorem le_u16_err (bs : Bytes) (h : bs.length < 2) :
    le_u16 bs = .error .InsufficientBytes := by
  match bs with
  | [] => rfl
  | [b0] => rfl
  | b0 :: b1 :: tl => simp at h; omega

theorem le_u16_ok_inv (bs : Bytes) (v : Nat) (rest : Bytes)
    (h : le_u16 bs = .ok (v, rest)) :
    2 ≤ bs.length ∧ rest = bs.drop 2 ∧ v = leU16At bs 0 := by
  match bs with
  | [] | [b0] => simp [le_u16] at h
  | b0 :: b1 :: tl =>
    simp only [le_u16, Except.ok.injEq, Prod.mk.injEq] at h
    simp [leU16At, ← h.1, ← h.2]

theorem le_u32_ok (bs : Bytes) (h : 4 ≤ bs.length) :
    le_u32 bs = .ok (leU32At bs 0, bs.drop 4) := by
  match bs with
  | b0 :: b1 :: b2 :: b3 :: tl => simp [le_u32, leU32At]
  | [] | [b0] | [b0, b1] | [b0, b1, b2] => simp at h

theorem le_u32_err (bs : Bytes) (h : bs.length < 4) :
    le_u32 bs = .error .InsufficientBytes := by
  match bs with
  | [] | [b0] | [b0, b1] | [b0, b1, b2] => rfl
  | b0 :: b1 :: b2 :: b3 :: tl => simp at h; omega

theorem le_u32_ok_inv (bs : Bytes) (v : Nat) (rest : Bytes)
    (h : le_u32 bs = .ok (v, rest)) :
    4 ≤ bs.length ∧ rest = bs.drop 4 ∧ v = leU32At bs 0 := by
  match bs with
  | [] | [b0] | [b0, b1] | [b0, b1, b2] => simp [le_u32] at h
  | b0 :: b1 :: b2 :: b3 :: tl =>
    simp only [le_u32, Except.ok.injEq, Prod.mk.injEq] at h
    simp [leU32At, ← h.1, ← h.2]

theorem le_i32_ok (bs : Bytes) (h : 4 ≤ bs.length) :
    le_i32 bs = .ok (natToI32 (leU32At bs 0), bs.drop 4) := by
  rw [le_i32, le_u32_ok bs h]

theorem le_i32_err (bs : Bytes) (h : bs.length < 4) :
    le_i32 bs = .error .InsufficientBytes := by
  rw [le_i32, le_u32_err bs h]

theorem le_i32_ok_inv (bs : Bytes) (v : Int) (rest : Bytes)
    (h : le_i32 bs = .ok (v, rest)) :
    4 ≤ bs.length ∧ rest = bs.drop 4 ∧ v = natToI32 (leU32At bs 0) := by
  unfold le_i32 at h
  cases hu : le_u32 bs with
  | error e => rw [hu] at h; simp at h
  | ok vr =>
    obtain ⟨u, r⟩ := vr
    rw [hu] at h
    simp only [Except.ok.injEq, Prod.mk.injEq] at h
    obtain ⟨h1, h2, h3⟩ := le_u32_ok_inv bs u r hu
    exact ⟨h1, by rw [← h.2, h2], by rw [← h.1, h3]⟩

theorem le_i16_ok (bs : Bytes) (h : 2 ≤ bs.length) :
    le_i16 bs = .ok (natToI16 (leU16At bs 0), bs.drop 2) := by
  rw [le_i16, le_u16_ok bs h]

theorem le_i16_err (bs : Bytes) (h : bs.length < 2) :
    le_i16 bs = .error .InsufficientBytes := by
  rw [le_i16, le_u16_err bs h]

theorem le_i16_ok_inv (bs : Bytes) (v : Int) (rest : Bytes)
    (h : le_i16 bs = .ok (v, rest)) :
    2 ≤ bs.length ∧ rest = bs.drop 2 ∧ v = natToI16 (leU16At bs 0) := by
  unfold le_i16 at h
  cases hu : le_u16 bs with
  | error e => rw [hu] at h; simp at h
  | ok vr =>
    obtain ⟨u, r⟩ := vr
    rw [hu] at h
    simp only [Except.ok.injEq, Prod.mk.injEq] at h
    obtain ⟨h1, h2, h3⟩ := le_u16_ok_inv bs u r hu
    exact ⟨h1, by rw [← h.2, h2], by rw [← h.1, h3]⟩

theorem stringReference_parse_ok (bs : Bytes) (h : 4 ≤ bs.length) :
    StringReference.parse bs = .ok (⟨natToI32 (leU32At bs 0)⟩, bs.drop 4) := by
  rw [StringReference.parse, le_i32_ok bs h]

theorem stringReference_parse_err (bs : Bytes) (h : bs.length < 4) :
    StringReference.parse bs = .error .InsufficientBytes := by
  rw [StringReference.parse, le_i32_err bs h]

theorem stringReference_parse_ok_inv (bs : Bytes) (v : StringReference) (rest : Bytes)
    (h : StringReference.parse bs = .ok (v, rest)) :
    4 ≤ bs.length ∧ rest = bs.drop 4 := by
  unfold StringReference.parse at h
  cases hu : le_i32 bs with
  | error e => rw [hu] at h; simp at h
  | ok vr =>
    obtain ⟨u, r⟩ := vr
    rw [hu] at h
    simp only [Except.ok.injEq, Prod.mk.injEq] at h
    obtain ⟨h1, h2, _⟩ := le_i32_ok_inv bs u r hu
    exact ⟨h1, by rw [← h.2, h2]⟩

theorem fragment_ref_ok (bs : Bytes) (h : 4 ≤ bs.length) :
    fragment_ref bs = .ok (⟨natToI32 (leU32At bs 0)⟩, bs.drop 4) := by
  rw [fragment_ref, le_i32_ok bs h]

theorem fragment_ref_err (bs : Bytes) (h : bs.length < 4) :
    fragment_ref bs = .error .InsufficientBytes := by
  rw [fragment_ref, le_i32_err bs h]

theorem fragment_ref_ok_inv (bs : Bytes) (v : FragmentRef) (rest : Bytes)
    (h : fragment_ref bs = .ok (v, rest)) :
    4 ≤ bs.length ∧ rest = bs.drop 4 := by
  unfold fragment_ref at h
  cases hu : le_i32 bs with
  | error e => rw [hu] at h; simp at h
  | ok vr =>
    obtain ⟨u, r⟩ := vr
    rw [hu] at h
    simp only [Except.ok.injEq, Prod.mk.injEq] at h
    obtain ⟨h1, h2, _⟩ := le_i32_ok_inv bs u r hu
    exact ⟨h1, by rw [← h.2, h2]⟩

/-! ### Serialize-after-parse reconstruction lemmas -/

theorem validBytes_drop (bs : Bytes) (n : Nat) (hv : validBytes bs) :
    validBytes (bs.drop n) := by
  intro b hb
  exact hv b (List.mem_of_mem_drop hb)

theorem le_u16_rt (bs : Bytes) (v : Nat) (rest : Bytes) (hv : validBytes bs)
    (h : le_u16 bs = .ok (v, rest)) :
    u16ToLeBytes v ++ rest = bs ∧ validBytes rest ∧ v < 65536 := by
  match bs with
  | [] | [b0] => simp [le_u16] at h
  | b0 :: b1 :: tl =>
    simp only [le_u16, Except.ok.injEq, Prod.mk.injEq] at h
    have h0 : b0 < 256 := hv b0 (by simp)
    have h1 : b1 < 256 := hv b1 (by simp)
    obtain ⟨hval, hrest⟩ := h
    subst hval hrest
    refine ⟨?_, fun b hb => hv b (by simp [hb]), by omega⟩
    have e0 : (b0 + 256 * b1) % 256 = b0 := by omega
    have e1 : (b0 + 256 * b1) / 256 % 256 = b1 := by omega
    simp [u16ToLeBytes, e0, e1]

theorem le_u32_rt (bs : Bytes) (v : Nat) (rest : Bytes) (hv : validBytes bs)
    (h : le_u32 bs = .ok (v, rest)) :
    u32ToLeBytes v ++ rest = bs ∧ validBytes rest ∧ v < 4294967296 := by
  match bs with
  | [] | [b0] | [b0, b1] | [b0, b1, b2] => simp [le_u32] at h
  | b0 :: b1 :: b2 :: b3 :: tl =>
    simp only [le_u32, Except.ok.injEq, Prod.mk.injEq] at h
    have h0 : b0 < 256 := hv b0 (by simp)
    have h1 : b1 < 256 := hv b1 (by simp)
    have h2 : b2 < 256 := hv b2 (by simp)
    have h3 : b3 < 256 := hv b3 (by simp)
    obtain ⟨hval, hrest⟩ := h
    subst hval hrest
    refine ⟨?_, fun b hb => hv b (by simp [hb]), by omega⟩
    have e0 : (b0 + 256 * b1 + 65536 * b2 + 16777216 * b3) % 256 = b0 := by omega
    have e1 : (b0 + 256 * b1 + 65536 * b2 + 16777216 * b3) / 256 % 256 = b1 := by omega
    have e2 : (b0 + 256 * b1 + 65536 * b2 + 16777216 * b3) / 65536 % 256 = b2 := by omega
    have e3 : (b0 + 256 * b1 + 65536 * b2 + 16777216 * b3) / 16777216 % 256 = b3 := by
      omega
    simp [u32ToLeBytes, e0, e1, e2, e3]

theorem i16_pattern (v : Nat) (hv : v < 65536) :
    ((natToI16 v) % 65536).toNat = v := by
  unfold natToI16
  split <;> omega

theorem i32_pattern (v : Nat) (hv : v < 4294967296) :
    ((natToI32 v) % 4294967296).toNat = v := by
  unfold natToI32
  split <;> omega

theorem le_i16_rt (bs : Bytes) (v : Int) (rest : Bytes) (hv : validBytes bs)
    (h : le_i16 bs = .ok (v, rest)) :
    i16ToLeBytes v ++ rest = bs ∧ validBytes rest := by
  unfold le_i16 at h
  cases hu : le_u16 bs with
  | error e => rw [hu] at h; simp at h
  | ok vr =>
    obtain ⟨u, r⟩ := vr
    rw [hu] at h
    simp only [Except.ok.injEq, Prod.mk.injEq] at h
    obtain ⟨heq, hvr, hlt⟩ := le_u16_rt bs u r hv hu
    rw [← h.1, ← h.2]
    rw [i16ToLeBytes, i16_pattern u hlt]
    exact ⟨heq, hvr⟩

theorem le_i32_rt (bs : Bytes) (v : Int) (rest : Bytes) (hv : validBytes bs)
    (h : le_i32 bs = .ok (v, rest)) :
    i32ToLeBytes v ++ rest = bs ∧ validBytes rest := by
  unfold le_i32 at h
  cases hu : le_u32 bs with
  | error e => rw [hu] at h; simp at h
  | ok vr =>
    obtain ⟨u, r⟩ := vr
    rw [hu] at h
    simp only [Except.ok.injEq, Prod.mk.injEq] at h
    obtain ⟨heq, hvr, hlt⟩ := le_u32_rt bs u r hv hu
    rw [← h.1, ← h.2]
    rw [i32ToLeBytes, i32_pattern u hlt]
    exact ⟨heq, hvr⟩

theorem stringReference_parse_rt (bs : Bytes) (v : StringReference) (rest : Bytes)
    (hv : validBytes bs) (h : StringReference.parse bs = .ok (v, rest)) :
    v.serialize ++ rest = bs ∧ validBytes rest := by
  unfold StringReference.parse at h
  cases hu : le_i32 bs with
  | error e => rw [hu] at h; simp at h
  | ok vr =>
    obtain ⟨u, r⟩ := vr
    rw [hu] at h
    simp only [Except.ok.injEq, Prod.mk.injEq] at h
    obtain ⟨heq, hvr⟩ := le_i32_rt bs u r hv hu
    rw [← h.1, ← h.2]
    exact ⟨heq, hvr⟩

theorem fragment_ref_rt (bs : Bytes) (v : FragmentRef) (rest : Bytes)
    (hv : validBytes bs) (h : fragment_ref bs = .ok (v, rest)) :
    v.serialize ++ rest = bs ∧ validBytes rest := by
  unfold fragment_ref at h
  cases hu : le_i32 bs with
  | error e => rw [hu] at h; simp at h
  | ok vr =>
    obtain ⟨u, r⟩ := vr
    rw [hu] at h
    simp only [Except.ok.injEq, Prod.mk.injEq] at h
    obtain ⟨heq, hvr⟩ := le_i32_rt bs u r hv hu
    rw [← h.1, ← h.2]
    exact ⟨heq, hvr⟩

theorem le_i16_triple_rt (bs : Bytes) (v : Int × Int × Int) (rest : Bytes)
    (hv : validBytes bs) (h : le_i16_triple bs = .ok (v, rest)) :
    tripleToLeBytes v ++ rest = bs ∧ validBytes rest := by
  unfold le_i16_triple at h
  obtain ⟨⟨x, r1⟩, hx, h⟩ := bind_ok h
  obtain ⟨⟨y, r2⟩, hy, h⟩ := bind_ok h
  obtain ⟨⟨z, r3⟩, hz, h⟩ := bind_ok h
  simp only [pure, Except.pure, Except.ok.injEq, Prod.mk.injEq] at h
  obtain ⟨hx1, hx2⟩ := le_i16_rt bs x r1 hv hx
  obtain ⟨hy1, hy2⟩ := le_i16_rt r1 y r2 hx2 hy
  obtain ⟨hz1, hz2⟩ := le_i16_rt r2 z r3 hy2 hz
  rw [← h.1, ← h.2]
  refine ⟨?_, hz2⟩
  rw [tripleToLeBytes]
  simp only [List.append_assoc]
  rw [hz1, hy1, hx1]

/-! ### Exactness lemmas for the triple and the `count` combinator -/

theorem le_i16_triple_ok (bs : Bytes) (h : 6 ≤ bs.length) :
    ∃ v, le_i16_triple bs = .ok (v, bs.drop 6) := by
  refine ⟨(natToI16 (leU16At bs 0), natToI16 (leU16At (bs.drop 2) 0),
          natToI16 (leU16At (bs.drop 4) 0)), ?_⟩
  unfold le_i16_triple
  rw [bind_ok_of (le_i16_ok bs (by omega))]
  dsimp only
  rw [bind_ok_of (le_i16_ok (bs.drop 2) (by simp; omega))]
  dsimp only
  rw [bind_ok_of (le_i16_ok ((bs.drop 2).drop 2) (by simp; omega))]
  simp [pure, Except.pure, List.drop_drop]

theorem le_i16_triple_err (bs : Bytes) (h : bs.length < 6) :
    le_i16_triple bs = .error .InsufficientBytes := by
  unfold le_i16_triple
  by_cases h2 : bs.length < 2
  · rw [bind_err_of (le_i16_err bs h2)]
  · rw [bind_ok_of (le_i16_ok bs (by omega))]
    dsimp only
    by_cases h4 : bs.length < 4
    · rw [bind_err_of (le_i16_err (bs.drop 2) (by simp; omega))]
    · rw [bind_ok_of (le_i16_ok (bs.drop 2) (by simp; omega))]
      dsimp only
      rw [bind_err_of (le_i16_err ((bs.drop 2).drop 2) (by simp; omega))]

theorem le_i16_triple_ok_inv (bs : Bytes) (v : Int × Int × Int) (rest : Bytes)
    (h : le_i16_triple bs = .ok (v, rest)) :
    6 ≤ bs.length ∧ rest = bs.drop 6 := by
  unfold le_i16_triple at h
  obtain ⟨⟨x, r1⟩, hx, h⟩ := bind_ok h
  obtain ⟨⟨y, r2⟩, hy, h⟩ := bind_ok h
  obtain ⟨⟨z, r3⟩, hz, h⟩ := bind_ok h
  simp only [pure, Except.pure, Except.ok.injEq, Prod.mk.injEq] at h
  obtain ⟨hx1, hx2, _⟩ := le_i16_ok_inv bs x r1 hx
  obtain ⟨hy1, hy2, _⟩ := le_i16_ok_inv r1 y r2 hy
  obtain ⟨hz1, hz2, _⟩ := le_i16_ok_inv r2 z r3 hz
  subst hx2 hy2 hz2
  simp only [List.length_drop] at hy1 hz1
  constructor
  · omega
  · rw [← h.2]
    simp [List.drop_drop]

theorem pcount_rt {α : Type} (p : Bytes → Except ParseError (α × Bytes)) (ser : α → Bytes)
    (hp : ∀ bs v rest, validBytes bs → p bs = .ok (v, rest) →
      ser v ++ rest = bs ∧ validBytes rest) :
    ∀ (n : Nat) (bs : Bytes) (l : List α) (rest : Bytes), validBytes bs →
      pcount p n bs = .ok (l, rest) →
      (l.map ser).flatten ++ rest = bs ∧ validBytes rest ∧ l.length = n := by
  intro n
  induction n with
  | zero =>
    intro bs l rest hv h
    simp only [pcount, Except.ok.injEq, Prod.mk.injEq] at h
    rw [← h.1, ← h.2]
    simpa using hv
  | succ n ih =>
    intro bs l rest hv h
    unfold pcount at h
    cases hp1 : p bs with
    | error e => rw [hp1] at h; simp at h
    | ok ar =>
      obtain ⟨a, bs1⟩ := ar
      rw [hp1] at h
      dsimp only at h
      cases hp2 : pcount p n bs1 with
      | error e => rw [hp2] at h; simp at h
      | ok lr =>
        obtain ⟨l1, bs2⟩ := lr
        rw [hp2] at h
        simp only [Except.ok.injEq, Prod.mk.injEq] at h
        obtain ⟨ha1, ha2⟩ := hp bs a bs1 hv hp1
        obtain ⟨hl1, hl2, hl3⟩ := ih bs1 l1 bs2 ha2 hp2
        rw [← h.1, ← h.2]
        refine ⟨?_, hl2, by simp [hl3]⟩
        simp only [List.map_cons, List.flatten_cons, List.append_assoc]
        rw [hl1, ha1]

theorem pcount_ok {α : Type} (p : Bytes → Except ParseError (α × Bytes)) (k : Nat)
    (hok : ∀ bs, k ≤ bs.length → ∃ v, p bs = .ok (v, bs.drop k)) :
    ∀ (n : Nat) (bs : Bytes), n * k ≤ bs.length →
      ∃ l, pcount p n bs = .ok (l, bs.drop (n * k)) := by
  intro n
  induction n with
  | zero => intro bs _; exact ⟨[], by simp [pcount]⟩
  | succ n ih =>
    intro bs hlen
    obtain ⟨v, hv⟩ := hok bs (by
      have : k ≤ (n + 1) * k := by
        calc k = 1 * k := by omega
        _ ≤ (n + 1) * k := Nat.mul_le_mul_right k (by omega)
      omega)
    obtain ⟨l, hl⟩ := ih (bs.drop k) (by simp only [List.length_drop]
                                         have : (n + 1) * k = n * k + k := by ring
                                         omega)
    refine ⟨v :: l, ?_⟩
    unfold pcount
    rw [hv]
    dsimp only
    rw [hl]
    dsimp only
    have hmul : (n + 1) * k = k + n * k := by ring
    rw [List.drop_drop, hmul]

theorem pcount_err {α : Type} (p : Bytes → Except ParseError (α × Bytes)) (k : Nat)
    (hok : ∀ bs, k ≤ bs.length → ∃ v, p bs = .ok (v, bs.drop k))
    (herr : ∀ bs, bs.length < k → p bs = .error .InsufficientBytes) :
    ∀ (n : Nat) (bs : Bytes), bs.length < n * k →
      pcount p n bs = .error .InsufficientBytes := by
  intro n
  induction n with
  | zero => intro bs h; simp at h
  | succ n ih =>
    intro bs hlen
    unfold pcount
    by_cases hk : bs.length < k
    · rw [herr bs hk]
    · obtain ⟨v, hv⟩ := hok bs (by omega)
      rw [hv]
      dsimp only
      rw [ih (bs.drop k) (by simp only [List.length_drop]
                             have : (n + 1) * k = n * k + k := by ring
                             omega)]

theorem pcount_ok_inv {α : Type} (p : Bytes → Except ParseError (α × Bytes)) (k : Nat)
    (hinv : ∀ bs (v : α) rest, p bs = .ok (v, rest) → k ≤ bs.length ∧ rest = bs.drop k) :
    ∀ (n : Nat) (bs : Bytes) (l : List α) (rest : Bytes),
      pcount p n bs = .ok (l, rest) →
      n * k ≤ bs.length ∧ rest = bs.drop (n * k) ∧ l.length = n := by
  intro n
  induction n with
  | zero =>
    intro bs l rest h
    simp only [pcount, Except.ok.injEq, Prod.mk.injEq] at h
    rw [← h.1, ← h.2]
    simp
  | succ n ih =>
    intro bs l rest h
    unfold pcount at h
    cases hp1 : p bs with
    | error e => rw [hp1] at h; simp at h
    | ok ar =>
      obtain ⟨a, bs1⟩ := ar
      rw [hp1] at h
      dsimp only at h
      cases hp2 : pcount p n bs1 with
      | error e => rw [hp2] at h; simp at h
      | ok lr =>
        obtain ⟨l1, bs2⟩ := lr
        rw [hp2] at h
        simp only [Except.ok.injEq, Prod.mk.injEq] at h
        obtain ⟨ha1, ha2⟩ := hinv bs a bs1 hp1
        obtain ⟨hl1, hl2, hl3⟩ := ih bs1 l1 bs2 hp2
        subst ha2
        simp only [List.length_drop] at hl1
        refine ⟨by
          have : (n + 1) * k = n * k + k := by ring
          omega, ?_, by rw [← h.1]; simp [hl3]⟩
        rw [← h.2, hl2, List.drop_drop]
        congr 1
        ring

/-! ### Byte-offset arithmetic -/

theorem leU16At_drop (bs : Bytes) (n o : Nat) :
    leU16At (bs.drop n) o = leU16At bs (n + o) := by
  simp [leU16At, List.getElem?_drop, Nat.add_assoc]

theorem leU32At_drop (bs : Bytes) (n o : Nat) :
    leU32At (bs.drop n) o = leU32At bs (n + o) := by
  simp [leU32At, List.getElem?_drop, Nat.add_assoc]

theorem le_f32_ok (bs : Bytes) (h : 4 ≤ bs.length) :
    le_f32 bs = .ok (leU32At bs 0, bs.drop 4) := le_u32_ok bs h

theorem le_f32_err (bs : Bytes) (h : bs.length < 4) :
    le_f32 bs = .error .InsufficientBytes := le_u32_err bs h

theorem le_f32_ok_inv (bs : Bytes) (v : Nat) (rest : Bytes)
    (h : le_f32 bs = .ok (v, rest)) :
    4 ≤ bs.length ∧ rest = bs.drop 4 ∧ v = leU32At bs 0 := le_u32_ok_inv bs v rest h

theorem le_f32_rt (bs : Bytes) (v : Nat) (rest : Bytes) (hv : validBytes bs)
    (h : le_f32 bs = .ok (v, rest)) :
    u32ToLeBytes v ++ rest = bs ∧ validBytes rest ∧ v < 4294967296 :=
  le_u32_rt bs v rest hv h

/-! ### Fixed-width reference kinds: exactness and reconstruction -/

theorem cameraReference_parse_err (bs : Bytes) (h : bs.length < 12) :
    CameraReferenceFragment.parse bs = .error .InsufficientBytes := by
  unfold CameraReferenceFragment.parse
  by_cases h4 : bs.length < 4
  · rw [bind_err_of (stringReference_parse_err bs h4)]
  · rw [bind_ok_of (stringReference_parse_ok bs (by omega))]
    dsimp only
    by_cases h8 : bs.length < 8
    · rw [bind_err_of (fragment_ref_err (bs.drop 4) (by simp only [List.length_drop]; omega))]
    · rw [bind_ok_of (fragment_ref_ok (bs.drop 4) (by simp only [List.length_drop]; omega))]
      dsimp only
      rw [bind_err_of (le_u32_err ((bs.drop 4).drop 4)
        (by simp only [List.length_drop]; omega))]

theorem cameraReference_parse_rt (bs : Bytes) (f : CameraReferenceFragment) (rem : Bytes)
    (hv : validBytes bs) (h : CameraReferenceFragment.parse bs = .ok (f, rem)) :
    f.serialize ++ rem = bs := by
  unfold CameraReferenceFragment.parse at h
  obtain ⟨⟨nr, r1⟩, h1, h⟩ := bind_ok h
  dsimp only at h
  obtain ⟨⟨fr, r2⟩, h2, h⟩ := bind_ok h
  dsimp only at h
  obtain ⟨⟨fl, r3⟩, h3, h⟩ := bind_ok h
  simp only [pure, Except.pure, Except.ok.injEq, Prod.mk.injEq] at h
  obtain ⟨e1, v1⟩ := stringReference_parse_rt bs nr r1 hv h1
  obtain ⟨e2, v2⟩ := fragment_ref_rt r1 fr r2 v1 h2
  obtain ⟨e3, v3, _⟩ := le_u32_rt r2 fl r3 v2 h3
  rw [← h.1, ← h.2]
  simp only [CameraReferenceFragment.serialize, List.append_assoc]
  rw [e3, e2, e1]

theorem meshAnimatedVerticesReference_parse_err (bs : Bytes) (h : bs.length < 12) :
    MeshAnimatedVerticesReferenceFragment.parse bs = .error .InsufficientBytes := by
  unfold MeshAnimatedVerticesReferenceFragment.parse
  by_cases h4 : bs.length < 4
  · rw [bind_err_of (stringReference_parse_err bs h4)]
  · rw [bind_ok_of (stringReference_parse_ok bs (by omega))]
    dsimp only
    by_cases h8 : bs.length < 8
    · rw [bind_err_of (fragment_ref_err (bs.drop 4) (by simp only [List.length_drop]; omega))]
    · rw [bind_ok_of (fragment_ref_ok (bs.drop 4) (by simp only [List.length_drop]; omega))]
      dsimp only
      rw [bind_err_of (le_u32_err ((bs.drop 4).drop 4)
        (by simp only [List.length_drop]; omega))]

theorem meshAnimatedVerticesReference_parse_rt (bs : Bytes)
    (f : MeshAnimatedVerticesReferenceFragment) (rem : Bytes)
    (hv : validBytes bs) (h : MeshAnimatedVerticesReferenceFragment.parse bs = .ok (f, rem)) :
    f.serialize ++ rem = bs := by
  unfold MeshAnimatedVerticesReferenceFragment.parse at h
  obtain ⟨⟨nr, r1⟩, h1, h⟩ := bind_ok h
  dsimp only at h
  obtain ⟨⟨fr, r2⟩, h2, h⟩ := bind_ok h
  dsimp only at h
  obtain ⟨⟨fl, r3⟩, h3, h⟩ := bind_ok h
  simp only [pure, Except.pure, Except.ok.injEq, Prod.mk.injEq] at h
  obtain ⟨e1, v1⟩ := stringReference_parse_rt bs nr r1 hv h1
  obtain ⟨e2, v2⟩ := fragment_ref_rt r1 fr r2 v1 h2
  obtain ⟨e3, v3, _⟩ := le_u32_rt r2 fl r3 v2 h3
  rw [← h.1, ← h.2]
  simp only [MeshAnimatedVerticesReferenceFragment.serialize, List.append_assoc]
  rw [e3, e2, e1]

theorem polygonAnimationReference_parse_ok (bs : Bytes) (h : 16 ≤ bs.length) :
    PolygonAnimationReferenceFragment.parse bs =
      .ok (⟨⟨natToI32 (leU32At bs 0)⟩, ⟨natToI32 (leU32At bs 4)⟩, leU32At bs 8,
            leU32At bs 12⟩, bs.drop 16) := by
  unfold PolygonAnimationReferenceFragment.parse
  rw [bind_ok_of (stringReference_parse_ok bs (by omega))]
  dsimp only
  rw [bind_ok_of (fragment_ref_ok (bs.drop 4) (by simp only [List.length_drop]; omega))]
  dsimp only
  rw [bind_ok_of (le_u32_ok ((bs.drop 4).drop 4) (by simp only [List.length_drop]; omega))]
  dsimp only
  rw [bind_ok_of (le_f32_ok (((bs.drop 4).drop 4).drop 4)
    (by simp only [List.length_drop]; omega))]
  dsimp only
  simp [pure, Except.pure, List.drop_drop, leU32At_drop]

theorem polygonAnimationReference_parse_err (bs : Bytes) (h : bs.length < 16) :
    PolygonAnimationReferenceFragment.parse bs = .error .InsufficientBytes := by
  unfold PolygonAnimationReferenceFragment.parse
  by_cases h4 : bs.length < 4
  · rw [bind_err_of (stringReference_parse_err bs h4)]
  · rw [bind_ok_of (stringReference_parse_ok bs (by omega))]
    dsimp only
    by_cases h8 : bs.length < 8
    · rw [bind_err_of (fragment_ref_err (bs.drop 4) (by simp only [List.length_drop]; omega))]
    · rw [bind_ok_of (fragment_ref_ok (bs.drop 4) (by simp only [List.length_drop]; omega))]
      dsimp only
      by_cases h12 : bs.length < 12
      · rw [bind_err_of (le_u32_err ((bs.drop 4).drop 4)
          (by simp only [List.length_drop]; omega))]
      · rw [bind_ok_of (le_u32_ok ((bs.drop 4).drop 4)
          (by simp only [List.length_drop]; omega))]
        dsimp only
        rw [bind_err_of (le_f32_err (((bs.drop 4).drop 4).drop 4)
          (by simp only [List.length_drop]; omega))]

theorem polygonAnimationReference_parse_ok_inv (bs : Bytes)
    (f : PolygonAnimationReferenceFragment) (rem : Bytes)
    (h : PolygonAnimationReferenceFragment.parse bs = .ok (f, rem)) :
    16 ≤ bs.length ∧ rem = bs.drop 16 ∧ f.params1 = leU32At bs 12 := by
  unfold PolygonAnimationReferenceFragment.parse at h
  obtain ⟨⟨nr, r1⟩, h1, h⟩ := bind_ok h
  dsimp only at h
  obtain ⟨⟨fr, r2⟩, h2, h⟩ := bind_ok h
  dsimp only at h
  obtain ⟨⟨fl, r3⟩, h3, h⟩ := bind_ok h
  dsimp only at h
  obtain ⟨⟨p1, r4⟩, h4, h⟩ := bind_ok h
  simp only [pure, Except.pure, Except.ok.injEq, Prod.mk.injEq] at h
  obtain ⟨l1, d1⟩ := stringReference_parse_ok_inv bs nr r1 h1
  obtain ⟨l2, d2⟩ := fragment_ref_ok_inv r1 fr r2 h2
  obtain ⟨l3, d3, _⟩ := le_u32_ok_inv r2 fl r3 h3
  obtain ⟨l4, d4, v4⟩ := le_f32_ok_inv r3 p1 r4 h4
  subst d1 d2 d3 d4
  simp only [List.length_drop] at l2 l3 l4
  simp only [List.drop_drop, leU32At_drop] at v4 ⊢
  refine ⟨by omega, ?_, ?_⟩
  · rw [← h.2]
    norm_num [List.drop_drop]
  · rw [← h.1]
    simpa using v4

theorem polygonAnimationReference_parse_rt (bs : Bytes)
    (f : PolygonAnimationReferenceFragment) (rem : Bytes)
    (hv : validBytes bs) (h : PolygonAnimationReferenceFragment.parse bs = .ok (f, rem)) :
    f.serialize ++ rem = bs := by
  unfold PolygonAnimationReferenceFragment.parse at h
  obtain ⟨⟨nr, r1⟩, h1, h⟩ := bind_ok h
  dsimp only at h
  obtain ⟨⟨fr, r2⟩, h2, h⟩ := bind_ok h
  dsimp only at h
  obtain ⟨⟨fl, r3⟩, h3, h⟩ := bind_ok h
  dsimp only at h
  obtain ⟨⟨p1, r4⟩, h4, h⟩ := bind_ok h
  simp only [pure, Except.pure, Except.ok.injEq, Prod.mk.injEq] at h
  obtain ⟨e1, v1⟩ := stringReference_parse_rt bs nr r1 hv h1
  obtain ⟨e2, v2⟩ := fragment_ref_rt r1 fr r2 v1 h2
  obtain ⟨e3, v3, _⟩ := le_u32_rt r2 fl r3 v2 h3
  obtain ⟨e4, v4, _⟩ := le_f32_rt r3 p1 r4 v3 h4
  rw [← h.1, ← h.2]
  simp only [PolygonAnimationReferenceFragment.serialize, List.append_assoc]
  rw [e4, e3, e2, e1]

/-! ### The counted-array kind -/

theorem meshAnimatedVertices_parse_rt (bs : Bytes) (f : MeshAnimatedVerticesFragment)
    (rem : Bytes) (hv : validBytes bs)
    (h : MeshAnimatedVerticesFragment.parse bs = .ok (f, rem)) :
    f.serialize ++ rem = bs := by
  unfold MeshAnimatedVerticesFragment.parse at h
  obtain ⟨⟨nr, i1⟩, h1, h⟩ := bind_ok h
  dsimp only at h
  obtain ⟨⟨fl, i2⟩, h2, h⟩ := bind_ok h
  dsimp only at h
  obtain ⟨⟨vc, i3⟩, h3, h⟩ := bind_ok h
  dsimp only at h
  obtain ⟨⟨fc, i4⟩, h4, h⟩ := bind_ok h
  dsimp only at h
  obtain ⟨⟨p1, i5⟩, h5, h⟩ := bind_ok h
  dsimp only at h
  obtain ⟨⟨p2, i6⟩, h6, h⟩ := bind_ok h
  dsimp only at h
  obtain ⟨⟨sc, i7⟩, h7, h⟩ := bind_ok h
  dsimp only at h
  obtain ⟨⟨frames, i8⟩, h8, h⟩ := bind_ok h
  dsimp only at h
  obtain ⟨⟨vertices, i9⟩, h9, h⟩ := bind_ok h
  dsimp only at h
  obtain ⟨⟨s6, i10⟩, h10, h⟩ := bind_ok h
  simp only [pure, Except.pure, Except.ok.injEq, Prod.mk.injEq] at h
  obtain ⟨e1, v1⟩ := stringReference_parse_rt bs nr i1 hv h1
  obtain ⟨e2, v2, _⟩ := le_u32_rt i1 fl i2 v1 h2
  obtain ⟨e3, v3, _⟩ := le_u16_rt i2 vc i3 v2 h3
  obtain ⟨e4, v4, _⟩ := le_u16_rt i3 fc i4 v3 h4
  obtain ⟨e5, v5, _⟩ := le_u16_rt i4 p1 i5 v4 h5
  obtain ⟨e6, v6, _⟩ := le_u16_rt i5 p2 i6 v5 h6
  obtain ⟨e7, v7, _⟩ := le_u16_rt i6 sc i7 v6 h7
  obtain ⟨e8, v8, _⟩ := pcount_rt le_u32 u32ToLeBytes
    (fun b v r hb hh => ⟨(le_u32_rt b v r hb hh).1, (le_u32_rt b v r hb hh).2.1⟩)
    fc i7 frames i8 v7 h8
  obtain ⟨e9, v9, _⟩ := pcount_rt le_i16_triple tripleToLeBytes
    le_i16_triple_rt vc i8 vertices i9 v8 h9
  obtain ⟨e10, v10, _⟩ := le_u16_rt i9 s6 i10 v9 h10
  rw [← h.1, ← h.2]
  simp only [MeshAnimatedVerticesFragment.serialize, List.append_assoc]
  rw [e10, e9, e8, e7, e6, e5, e4, e3, e2, e1]

theorem meshAnimatedVertices_parse_ok_inv (bs : Bytes) (f : MeshAnimatedVerticesFragment)
    (rem : Bytes) (h : MeshAnimatedVerticesFragment.parse bs = .ok (f, rem)) :
    f.vertex_count = leU16At bs 8 ∧ f.frame_count = leU16At bs 10 ∧
    f.frames.length = f.frame_count ∧ f.vertices.length = f.vertex_count ∧
    18 + 4 * leU16At bs 10 + 6 * leU16At bs 8 + 2 ≤ bs.length ∧
    rem = bs.drop (18 + 4 * leU16At bs 10 + 6 * leU16At bs 8 + 2) := by
  unfold MeshAnimatedVerticesFragment.parse at h
  obtain ⟨⟨nr, i1⟩, h1, h⟩ := bind_ok h
  dsimp only at h
  obtain ⟨⟨fl, i2⟩, h2, h⟩ := bind_ok h
  dsimp only at h
  obtain ⟨⟨vc, i3⟩, h3, h⟩ := bind_ok h
  dsimp only at h
  obtain ⟨⟨fc, i4⟩, h4, h⟩ := bind_ok h
  dsimp only at h
  obtain ⟨⟨p1, i5⟩, h5, h⟩ := bind_ok h
  dsimp only at h
  obtain ⟨⟨p2, i6⟩, h6, h⟩ := bind_ok h
  dsimp only at h
  obtain ⟨⟨sc, i7⟩, h7, h⟩ := bind_ok h
  dsimp only at h
  obtain ⟨⟨frames, i8⟩, h8, h⟩ := bind_ok h
  dsimp only at h
  obtain ⟨⟨vertices, i9⟩, h9, h⟩ := bind_ok h
  dsimp only at h
  obtain ⟨⟨s6, i10⟩, h10, h⟩ := bind_ok h
  simp only [pure, Except.pure, Except.ok.injEq, Prod.mk.injEq] at h
  obtain ⟨l1, d1⟩ := stringReference_parse_ok_inv bs nr i1 h1
  obtain ⟨l2, d2, _⟩ := le_u32_ok_inv i1 fl i2 h2
  obtain ⟨l3, d3, val3⟩ := le_u16_ok_inv i2 vc i3 h3
  obtain ⟨l4, d4, val4⟩ := le_u16_ok_inv i3 fc i4 h4
  obtain ⟨l5, d5, _⟩ := le_u16_ok_inv i4 p1 i5 h5
  obtain ⟨l6, d6, _⟩ := le_u16_ok_inv i5 p2 i6 h6
  obtain ⟨l7, d7, _⟩ := le_u16_ok_inv i6 sc i7 h7
  obtain ⟨l8, d8, len8⟩ := pcount_ok_inv le_u32 4
    (fun b v r hh => ⟨(le_u32_ok_inv b v r hh).1, (le_u32_ok_inv b v r hh).2.1⟩)
    fc i7 frames i8 h8
  obtain ⟨l9, d9, len9⟩ := pcount_ok_inv le_i16_triple 6
    le_i16_triple_ok_inv vc i8 vertices i9 h9
  obtain ⟨l10, d10, _⟩ := le_u16_ok_inv i9 s6 i10 h10
  subst d1 d2 d3 d4 d5 d6 d7 d8 d9 d10
  simp only [List.length_drop] at l2 l3 l4 l5 l6 l7 l8 l9 l10
  norm_num [List.drop_drop, leU16At_drop] at val3 val4
  rw [← h.1, ← h.2]
  subst val3 val4
  refine ⟨rfl, rfl, len8, len9, by omega, ?_⟩
  norm_num [List.drop_drop]
  congr 1
  ring

theorem meshAnimatedVertices_parse_ok (bs : Bytes)
    (h : 18 + 4 * leU16At bs 10 + 6 * leU16At bs 8 + 2 ≤ bs.length) :
    ∃ f, MeshAnimatedVerticesFragment.parse bs =
      .ok (f, bs.drop (18 + 4 * leU16At bs 10 + 6 * leU16At bs 8 + 2)) := by
  obtain ⟨frames, hframes⟩ := pcount_ok le_u32 4
    (fun b hb => ⟨leU32At b 0, le_u32_ok b hb⟩) (leU16At bs 10) (bs.drop 18)
    (by simp only [List.length_drop]; omega)
  rw [List.drop_drop] at hframes
  obtain ⟨vertices, hverts⟩ := pcount_ok le_i16_triple 6 le_i16_triple_ok
    (leU16At bs 8) (bs.drop (18 + leU16At bs 10 * 4))
    (by simp only [List.length_drop]; omega)
  rw [List.drop_drop] at hverts
  refine ⟨⟨⟨natToI32 (leU32At bs 0)⟩, leU32At bs 4, leU16At bs 8, leU16At bs 10,
          leU16At bs 12, leU16At bs 14, leU16At bs 16, frames, vertices,
          leU16At bs (18 + leU16At bs 10 * 4 + leU16At bs 8 * 6)⟩, ?_⟩
  unfold MeshAnimatedVerticesFragment.parse
  rw [bind_ok_of (stringReference_parse_ok bs (by omega))]
  dsimp only
  rw [bind_ok_of (le_u32_ok (bs.drop 4) (by simp only [List.length_drop]; omega))]
  dsimp only
  rw [bind_ok_of (le_u16_ok ((bs.drop 4).drop 4) (by simp only [List.length_drop]; omega))]
  dsimp only
  rw [bind_ok_of (le_u16_ok (((bs.drop 4).drop 4).drop 2)
    (by simp only [List.length_drop]; omega))]
  dsimp only
  rw [bind_ok_of (le_u16_ok ((((bs.drop 4).drop 4).drop 2).drop 2)
    (by simp only [List.length_drop]; omega))]
  dsimp only
  rw [bind_ok_of (le_u16_ok (((((bs.drop 4).drop 4).drop 2).drop 2).drop 2)
    (by simp only [List.length_drop]; omega))]
  dsimp only
  rw [bind_ok_of (le_u16_ok ((((((bs.drop 4).drop 4).drop 2).drop 2).drop 2).drop 2)
    (by simp only [List.length_drop]; omega))]
  dsimp only
  norm_num [List.drop_drop, leU16At_drop, leU32At_drop]
  rw [bind_ok_of hframes]
  dsimp only
  rw [bind_ok_of hverts]
  dsimp only
  rw [map_ok_of (le_u16_ok (bs.drop (18 + leU16At bs 10 * 4 + leU16At bs 8 * 6))
    (by simp only [List.length_drop]; omega))]
  dsimp only
  simp only [List.drop_drop, leU16At_drop]
  norm_num
  have harith : 18 + leU16At bs 10 * 4 + leU16At bs 8 * 6 + 2 =
      18 + 4 * leU16At bs 10 + 6 * leU16At bs 8 + 2 := by ring
  rw [harith]

theorem meshAnimatedVertices_parse_err (bs : Bytes)
    (h : bs.length < 18 + 4 * leU16At bs 10 + 6 * leU16At bs 8 + 2) :
    MeshAnimatedVerticesFragment.parse bs = .error .InsufficientBytes := by
  unfold MeshAnimatedVerticesFragment.parse
  by_cases h4 : bs.length < 4
  · rw [bind_err_of (stringReference_parse_err bs h4)]
  · rw [bind_ok_of (stringReference_parse_ok bs (by omega))]
    dsimp only
    by_cases h8 : bs.length < 8
    · rw [bind_err_of (le_u32_err (bs.drop 4) (by simp only [List.length_drop]; omega))]
    · rw [bind_ok_of (le_u32_ok (bs.drop 4) (by simp only [List.length_drop]; omega))]
      dsimp only
      by_cases h10 : bs.length < 10
      · rw [bind_err_of (le_u16_err ((bs.drop 4).drop 4)
          (by simp only [List.length_drop]; omega))]
      · rw [bind_ok_of (le_u16_ok ((bs.drop 4).drop 4)
          (by simp only [List.length_drop]; omega))]
        dsimp only
        by_cases h12 : bs.length < 12
        · rw [bind_err_of (le_u16_err (((bs.drop 4).drop 4).drop 2)
            (by simp only [List.length_drop]; omega))]
        · rw [bind_ok_of (le_u16_ok (((bs.drop 4).drop 4).drop 2)
            (by simp only [List.length_drop]; omega))]
          dsimp only
          by_cases h14 : bs.length < 14
          · rw [bind_err_of (le_u16_err ((((bs.drop 4).drop 4).drop 2).drop 2)
              (by simp only [List.length_drop]; omega))]
          · rw [bind_ok_of (le_u16_ok ((((bs.drop 4).drop 4).drop 2).drop 2)
              (by simp only [List.length_drop]; omega))]
            dsimp only
            by_cases h16 : bs.length < 16
            · rw [bind_err_of (le_u16_err (((((bs.drop 4).drop 4).drop 2).drop 2).drop 2)
                (by simp only [List.length_drop]; omega))]
            · rw [bind_ok_of (le_u16_ok (((((bs.drop 4).drop 4).drop 2).drop 2).drop 2)
                (by simp only [List.length_drop]; omega))]
              dsimp only
              by_cases h18 : bs.length < 18
              · rw [bind_err_of
                  (le_u16_err ((((((bs.drop 4).drop 4).drop 2).drop 2).drop 2).drop 2)
                    (by simp only [List.length_drop]; omega))]
              · rw [bind_ok_of
                  (le_u16_ok ((((((bs.drop 4).drop 4).drop 2).drop 2).drop 2).drop 2)
                    (by simp only [List.length_drop]; omega))]
                dsimp only
                norm_num [List.drop_drop, leU16At_drop, leU32At_drop]
                by_cases hfr : bs.length < leU16At bs 10 * 4 + 18
                · rw [bind_err_of (pcount_err le_u32 4
                    (fun b hb => ⟨leU32At b 0, le_u32_ok b hb⟩) le_u32_err
                    (leU16At bs 10) (bs.drop 18)
                    (by simp only [List.length_drop]; omega))]
                · obtain ⟨frames, hframes⟩ := pcount_ok le_u32 4
                    (fun b hb => ⟨leU32At b 0, le_u32_ok b hb⟩) (leU16At bs 10) (bs.drop 18)
                    (by simp only [List.length_drop]; omega)
                  rw [List.drop_drop] at hframes
                  rw [bind_ok_of hframes]
                  dsimp only
                  by_cases hvx : bs.length < 18 + leU16At bs 10 * 4 + leU16At bs 8 * 6
                  · rw [bind_err_of (pcount_err le_i16_triple 6 le_i16_triple_ok
                      le_i16_triple_err (leU16At bs 8) (bs.drop (18 + leU16At bs 10 * 4))
                      (by simp only [List.length_drop]; omega))]
                  · obtain ⟨vertices, hverts⟩ := pcount_ok le_i16_triple 6 le_i16_triple_ok
                      (leU16At bs 8) (bs.drop (18 + leU16At bs 10 * 4))
                      (by simp only [List.length_drop]; omega)
                    rw [List.drop_drop] at hverts
                    rw [bind_ok_of hverts]
                    dsimp only
                    rw [map_err_of
                      (le_u16_err (bs.drop (18 + leU16At bs 10 * 4 + leU16At bs 8 * 6))
                        (by simp only [List.length_drop]; omega))]

/-! ### Emitted-length helpers -/

theorem length_u16ToLeBytes (v : Nat) : (u16ToLeBytes v).length = 2 := rfl

theorem length_u32ToLeBytes (v : Nat) : (u32ToLeBytes v).length = 4 := rfl

theorem length_i32ToLeBytes (i : Int) : (i32ToLeBytes i).length = 4 := rfl

theorem length_stringReference_serialize (r : StringReference) :
    r.serialize.length = 4 := rfl

theorem length_fragmentRef_serialize (r : FragmentRef) :
    r.serialize.length = 4 := rfl

theorem length_tripleToLeBytes (v : Int × Int × Int) :
    (tripleToLeBytes v).length = 6 := rfl

theorem flatten_map_length {α : Type} (g : α → Bytes) (k : Nat)
    (hg : ∀ a, (g a).length = k) :
    ∀ l : List α, ((l.map g).flatten).length = k * l.length := by
  intro l
  induction l with
  | nil => simp
  | cons a t ih =>
    simp only [List.map_cons, List.flatten_cons, List.length_append, List.length_cons,
      ih, hg a]
    ring

/-! ### Concrete sample payloads -/

/-- The camera-reference sample of the spec: name_ref 0, ref_index 1730,
flags 0, each little-endian 32-bit. -/
def c7payload : Bytes := [0, 0, 0, 0, 194, 6, 0, 0, 0, 0, 0, 0]

def c7frag : CameraReferenceFragment := ⟨StringReference.new 0, FragmentRef.new 1730, 0⟩

/-- Frame values of the animated-vertex-set sample: 15 values, the first
being 142868935. -/
def c3frames : List Nat := 142868935 :: List.replicate 14 0

/-- Vertex triples of the animated-vertex-set sample: 104 triples, the
first being (-556, -1639, -13535). -/
def c3vertices : List (Int × Int × Int) :=
  (-556, -1639, -13535) :: List.replicate 103 (0, 0, 0)

def c3frag : MeshAnimatedVerticesFragment :=
  ⟨StringReference.new (-5038), 0, 104, 15, 67, 0, 10, c3frames, c3vertices, 64980⟩

/-- The animated-vertex-set sample payload: header declaring
vertex_count 104 and frame_count 15, then the 15 frame u32 values, the
104 i16 triples, and the trailing reserved u16. -/
def c3payload : Bytes :=
  i32ToLeBytes (-5038) ++ u32ToLeBytes 0 ++ u16ToLeBytes 104 ++ u16ToLeBytes 15
    ++ u16ToLeBytes 67 ++ u16ToLeBytes 0 ++ u16ToLeBytes 10
    ++ (c3frames.map u32ToLeBytes).flatten ++ (c3vertices.map tripleToLeBytes).flatten
    ++ u16ToLeBytes 64980

/-- A 16-byte polygon-animation-reference payload whose flags word is 0
(bit 0 clear) and whose trailing float field holds the pattern of 1.0f. -/
def c5payload : Bytes := [0, 0, 0, 0, 0, 0, 0, 0, 0, 0, 0, 0, 0, 0, 128, 63]

/-! ### Claims -/

/-- C1: for every fragment kind present in the source and every byte
slice its parse accepts, serialize applied to the parsed value
reproduces the consumed payload byte-for-byte (the serialized bytes
followed by the unconsumed remainder are exactly the original input),
including the uninterpreted fields. -/
theorem c1_parse_serialize_roundtrip (bs : Bytes) (hv : validBytes bs) :
    (∀ f rem, CameraReferenceFragment.parse bs = .ok (f, rem) →
      f.serialize ++ rem = bs) ∧
    (∀ f rem, MeshAnimatedVerticesFragment.parse bs = .ok (f, rem) →
      f.serialize ++ rem = bs) ∧
    (∀ f rem, MeshAnimatedVerticesReferenceFragment.parse bs = .ok (f, rem) →
      f.serialize ++ rem = bs) ∧
    (∀ f rem, PolygonAnimationReferenceFragment.parse bs = .ok (f, rem) →
      f.serialize ++ rem = bs) ∧
    (∀ f rem, ZoneUnknownFragment.parse bs = .ok (f, rem) →
      f.serialize ++ rem = bs) := by
  refine ⟨fun f rem h => cameraReference_parse_rt bs f rem hv h,
          fun f rem h => meshAnimatedVertices_parse_rt bs f rem hv h,
          fun f rem h => meshAnimatedVerticesReference_parse_rt bs f rem hv h,
          fun f rem h => polygonAnimationReference_parse_rt bs f rem hv h,
          fun f rem h => ?_⟩
  simp only [ZoneUnknownFragment.parse, Except.ok.injEq, Prod.mk.injEq] at h
  rw [← h.2]
  simp [ZoneUnknownFragment.serialize]

/-- Witness for C1 at the concrete camera-reference sample payload. -/
theorem c1_parse_serialize_roundtrip_witness :
    CameraReferenceFragment.serialize c7frag ++ [] = c7payload :=
  (c1_parse_serialize_roundtrip c7payload (by decide)).1 c7frag [] (by rfl)

/-- C2: the two variable-length sections of the animated-vertex-set are
sized by the frame_count and vertex_count header fields (the little-endian
u16 values at offsets 10 and 8 of the record), never by the remaining
input length, and the parse fails with InsufficientBytes when the
declared counts exceed the available bytes. -/
theorem c2_mesh_counts_from_header (bs : Bytes) :
    (∀ f rem, MeshAnimatedVerticesFragment.parse bs = .ok (f, rem) →
      f.frames.length = f.frame_count ∧ f.vertices.length = f.vertex_count ∧
      f.vertex_count = leU16At bs 8 ∧ f.frame_count = leU16At bs 10) ∧
    (bs.length < 18 + 4 * leU16At bs 10 + 6 * leU16At bs 8 + 2 →
      MeshAnimatedVerticesFragment.parse bs = .error .InsufficientBytes) := by
  constructor
  · intro f rem h
    obtain ⟨a, b, c, d, _, _⟩ := meshAnimatedVertices_parse_ok_inv bs f rem h
    exact ⟨c, d, a, b⟩
  · exact meshAnimatedVertices_parse_err bs

/-- Witness for C2 at the concrete animated-vertex-set sample payload. -/
theorem c2_mesh_counts_from_header_witness :
    c3frag.frames.length = c3frag.frame_count ∧
    c3frag.vertices.length = c3frag.vertex_count ∧
    c3frag.vertex_count = leU16At c3payload 8 ∧
    c3frag.frame_count = leU16At c3payload 10 :=
  (c2_mesh_counts_from_header c3payload).1 c3frag [] (by rfl)

/-- C3: the animated-vertex-set sample payload (vertex_count 104,
frame_count 15, first frame value 142868935, first vertex
(-556, -1639, -13535), trailing reserved u16) parses to exactly those
values and serializes back to the identical payload. -/
theorem c3_mesh_concrete_scenario :
    MeshAnimatedVerticesFragment.parse c3payload = .ok (c3frag, []) ∧
    c3frag.frames.length = 15 ∧ c3frag.vertices.length = 104 ∧
    c3frag.frames.getD 0 0 = 142868935 ∧
    c3frag.vertices.getD 0 (0, 0, 0) = (-556, -1639, -13535) ∧
    c3frag.serialize = c3payload :=
  ⟨rfl, rfl, rfl, rfl, rfl, rfl⟩

/-- C4: the zero-field opaque zone kind parses any input (including the
empty slice) consuming zero bytes, serializes to zero bytes, and reports
an empty name whatever the string block holds. -/
theorem c4_zone_unknown_behaviour :
    (∀ bs : Bytes, ZoneUnknownFragment.parse bs = .ok (⟨⟩, bs)) ∧
    (∀ f : ZoneUnknownFragment, f.serialize = []) ∧
    (∀ (f : ZoneUnknownFragment) (sh : StringHash), f.name sh = "") :=
  ⟨fun _ => rfl, fun _ => rfl, fun _ _ => rfl⟩

/-- C5: the polygon-animation reference reads and writes its trailing
params1 float unconditionally, independently of bit 0 of flags: parse
succeeds exactly on inputs of at least 16 bytes, always consumes exactly
16 bytes with params1 taken from offset 12, and serialize of every value
(whatever its flags) emits exactly 16 bytes ending in the params1
pattern. -/
theorem c5_polyref_params1_unconditional (bs : Bytes) :
    ((∃ v, PolygonAnimationReferenceFragment.parse bs = .ok v) ↔ 16 ≤ bs.length) ∧
    (∀ f rem, PolygonAnimationReferenceFragment.parse bs = .ok (f, rem) →
      rem = bs.drop 16 ∧ f.params1 = leU32At bs 12) ∧
    (∀ f : PolygonAnimationReferenceFragment,
      f.serialize.length = 16 ∧ f.serialize.drop 12 = u32ToLeBytes f.params1) := by
  refine ⟨⟨?_, ?_⟩, ?_, ?_⟩
  · rintro ⟨⟨f, rem⟩, hf⟩
    exact (polygonAnimationReference_parse_ok_inv bs f rem hf).1
  · intro hlen
    exact ⟨_, polygonAnimationReference_parse_ok bs hlen⟩
  · intro f rem h
    obtain ⟨_, h2, h3⟩ := polygonAnimationReference_parse_ok_inv bs f rem h
    exact ⟨h2, h3⟩
  · intro f
    constructor
    · simp [PolygonAnimationReferenceFragment.serialize, List.length_append,
        length_stringReference_serialize, length_fragmentRef_serialize,
        length_u32ToLeBytes]
    · have hassoc : f.serialize =
          (f.name_reference.serialize ++ f.reference.serialize ++ u32ToLeBytes f.flags)
            ++ u32ToLeBytes f.params1 := by
        simp [PolygonAnimationReferenceFragment.serialize, List.append_assoc]
      rw [hassoc, List.drop_left' (by simp [List.length_append,
        length_stringReference_serialize, length_fragmentRef_serialize,
        length_u32ToLeBytes])]

/-- Witness for C5 at a concrete 16-byte payload whose flags bit 0 is
clear while the params1 field is still read. -/
theorem c5_polyref_params1_unconditional_witness :
    ([] : Bytes) = c5payload.drop 16 ∧ (1065353216 : Nat) = leU32At c5payload 12 :=
  (c5_polyref_params1_unconditional c5payload).2.1 ⟨⟨0⟩, ⟨0⟩, 0, 1065353216⟩ [] (by rfl)

/-- C6: parsing any of the four field-bearing kinds on an input shorter
than its minimum fixed-field width fails with InsufficientBytes and
yields no value. -/
theorem c6_truncated_input (bs : Bytes) :
    (bs.length < 12 → CameraReferenceFragment.parse bs = .error .InsufficientBytes) ∧
    (bs.length < 12 →
      MeshAnimatedVerticesReferenceFragment.parse bs = .error .InsufficientBytes) ∧
    (bs.length < 16 →
      PolygonAnimationReferenceFragment.parse bs = .error .InsufficientBytes) ∧
    (bs.length < 20 →
      MeshAnimatedVerticesFragment.parse bs = .error .InsufficientBytes) :=
  ⟨cameraReference_parse_err bs, meshAnimatedVerticesReference_parse_err bs,
   polygonAnimationReference_parse_err bs,
   fun h => meshAnimatedVertices_parse_err bs (by omega)⟩

/-- Witness for C6 at the empty input. -/
theorem c6_truncated_input_witness :
    CameraReferenceFragment.parse [] = .error .InsufficientBytes ∧
    MeshAnimatedVerticesReferenceFragment.parse [] = .error .InsufficientBytes ∧
    PolygonAnimationReferenceFragment.parse [] = .error .InsufficientBytes ∧
    MeshAnimatedVerticesFragment.parse [] = .error .InsufficientBytes := by
  obtain ⟨a, b, c, d⟩ := c6_truncated_input []
  exact ⟨a (by decide), b (by decide), c (by decide), d (by decide)⟩

/-- C7: the 12-byte camera-reference payload encoding name_ref 0,
ref_index 1730 and flags 0 parses to exactly those three field values,
and serialize of the parsed value yields the identical 12 bytes. -/
theorem c7_camera_concrete_scenario :
    CameraReferenceFragment.parse c7payload = .ok (c7frag, []) ∧
    c7frag.name_reference = StringReference.new 0 ∧
    c7frag.reference = FragmentRef.new 1730 ∧ c7frag.flags = 0 ∧
    c7frag.serialize = c7payload ∧ c7payload.length = 12 :=
  ⟨rfl, rfl, rfl, rfl, rfl, rfl⟩

/-- C8: each kind's parse is a pure function of its input: equal input
slices give equal results. -/
theorem c8_parse_deterministic (bs1 bs2 : Bytes) (h : bs1 = bs2) :
    CameraReferenceFragment.parse bs1 = CameraReferenceFragment.parse bs2 ∧
    MeshAnimatedVerticesFragment.parse bs1 = MeshAnimatedVerticesFragment.parse bs2 ∧
    MeshAnimatedVerticesReferenceFragment.parse bs1 =
      MeshAnimatedVerticesReferenceFragment.parse bs2 ∧
    PolygonAnimationReferenceFragment.parse bs1 =
      PolygonAnimationReferenceFragment.parse bs2 ∧
    ZoneUnknownFragment.parse bs1 = ZoneUnknownFragment.parse bs2 := by
  subst h
  exact ⟨rfl, rfl, rfl, rfl, rfl⟩

/-- Witness for C8 at the concrete camera-reference payload. -/
theorem c8_parse_deterministic_witness :
    CameraReferenceFragment.parse c7payload = CameraReferenceFragment.parse c7payload ∧
    MeshAnimatedVerticesFragment.parse c7payload =
      MeshAnimatedVerticesFragment.parse c7payload ∧
    MeshAnimatedVerticesReferenceFragment.parse c7payload =
      MeshAnimatedVerticesReferenceFragment.parse c7payload ∧
    PolygonAnimationReferenceFragment.parse c7payload =
      PolygonAnimationReferenceFragment.parse c7payload ∧
    ZoneUnknownFragment.parse c7payload = ZoneUnknownFragment.parse c7payload :=
  c8_parse_deterministic c7payload c7payload rfl

/-- C9: the animated-vertex-set parse succeeds exactly when the input
holds 18 header bytes plus 4*frame_count + 6*vertex_count + 2 further
bytes, frame_count and vertex_count being the little-endian u16 values
at offsets 10 and 8, and on success the remainder is the input past the
consumed bytes. -/
theorem c9_mesh_success_characterization (bs : Bytes) :
    ((∃ v, MeshAnimatedVerticesFragment.parse bs = .ok v) ↔
      18 + 4 * leU16At bs 10 + 6 * leU16At bs 8 + 2 ≤ bs.length) ∧
    (∀ f rem, MeshAnimatedVerticesFragment.parse bs = .ok (f, rem) →
      rem = bs.drop (18 + 4 * leU16At bs 10 + 6 * leU16At bs 8 + 2)) := by
  constructor
  · constructor
    · rintro ⟨⟨f, rem⟩, hf⟩
      exact (meshAnimatedVertices_parse_ok_inv bs f rem hf).2.2.2.2.1
    · intro hlen
      obtain ⟨f, hf⟩ := meshAnimatedVertices_parse_ok bs hlen
      exact ⟨(f, _), hf⟩
  · intro f rem h
    exact (meshAnimatedVertices_parse_ok_inv bs f rem h).2.2.2.2.2

/-- Witness for C9 at the concrete animated-vertex-set payload. -/
theorem c9_mesh_success_characterization_witness :
    ([] : Bytes) =
      c3payload.drop (18 + 4 * leU16At c3payload 10 + 6 * leU16At c3payload 8 + 2) :=
  (c9_mesh_success_characterization c3payload).2 c3frag [] (by rfl)

/-- C10: for every animated-vertex-set value, even one whose count
fields disagree with its vectors, serialize emits the stored count
fields verbatim at offsets 8 and 10 but sizes the output by the actual
vectors: 18 + 4*frames.length + 6*vertices.length + 2 bytes. -/
theorem c10_mesh_serialize_shape (f : MeshAnimatedVerticesFragment) :
    f.serialize.length = 18 + 4 * f.frames.length + 6 * f.vertices.length + 2 ∧
    (f.serialize.drop 8).take 2 = u16ToLeBytes f.vertex_count ∧
    (f.serialize.drop 10).take 2 = u16ToLeBytes f.frame_count := by
  have hfr := flatten_map_length u32ToLeBytes 4 (fun _ => rfl) f.frames
  have hvx := flatten_map_length tripleToLeBytes 6 length_tripleToLeBytes f.vertices
  refine ⟨?_, ?_, ?_⟩
  · simp only [MeshAnimatedVerticesFragment.serialize, List.length_append,
      length_stringReference_serialize, length_u32ToLeBytes, length_u16ToLeBytes,
      hfr, hvx]
  · have hassoc : f.serialize =
        (f.name_reference.serialize ++ u32ToLeBytes f.flags) ++
          (u16ToLeBytes f.vertex_count ++ (u16ToLeBytes f.frame_count ++
            (u16ToLeBytes f.param1 ++ (u16ToLeBytes f.param2 ++ (u16ToLeBytes f.scale ++
              ((f.frames.map u32ToLeBytes).flatten ++
                ((f.vertices.map tripleToLeBytes).flatten ++ u16ToLeBytes f.size6))))))) := by
      simp [MeshAnimatedVerticesFragment.serialize, List.append_assoc]
    rw [hassoc, List.drop_left' (by simp [List.length_append,
      length_stringReference_serialize, length_u32ToLeBytes])]
    exact List.take_left' rfl
  · have hassoc : f.serialize =
        (f.name_reference.serialize ++ u32ToLeBytes f.flags ++
          u16ToLeBytes f.vertex_count) ++
          (u16ToLeBytes f.frame_count ++ (u16ToLeBytes f.param1 ++
            (u16ToLeBytes f.param2 ++ (u16ToLeBytes f.scale ++
              ((f.frames.map u32ToLeBytes).flatten ++
                ((f.vertices.map tripleToLeBytes).flatten ++ u16ToLeBytes f.size6)))))) := by
      simp [MeshAnimatedVerticesFragment.serialize, List.append_assoc]
    rw [hassoc, List.drop_left' (by simp [List.length_append,
      length_stringReference_serialize, length_u32ToLeBytes, length_u16ToLeBytes])]
    exact List.take_left' rfl

end EqWld
